import Mathlib

/-!
Verification development for the radarx polar-to-Cartesian volume gridding
core: target-grid construction, georeferencing, weighted interpolation and
grid assembly, as described by the design specification and exercised by the
repository's gridding notebooks.
-/

namespace Radarx

/-! ## Grid specification builder -/

/-- Modelled from the spec: number of grid points on one axis of the target
grid, `floor((max - min)/step) + 1` (the body of `radarx.grid.make_3d_grid`
is absent from `src/`; only its notebook callers are present). -/
def axisCount (lo hi step : ℚ) : ℕ :=
  (⌊(hi - lo) / step⌋).toNat + 1

/-- Modelled from the spec: one grid axis, built as the closed arithmetic
sequence `min, min + step, min + 2·step, …` up to and including the largest
value that stays `≤ max`. -/
def makeAxis (lo hi step : ℚ) : List ℚ :=
  (List.range (axisCount lo hi step)).map (fun i : ℕ => lo + (i : ℚ) * step)

/-- One axis description `(min, max, step)` of a GridSpec. -/
structure AxisSpec where
  lo : ℚ
  hi : ℚ
  step : ℚ

/-- Modelled from the spec: an axis description is valid when `step > 0`
and `min < max`. -/
def validAxis (a : AxisSpec) : Bool :=
  decide (0 < a.step) && decide (a.lo < a.hi)

/-- Error taxonomy of the grid builder. -/
inductive GridError where
  | invalidRange
deriving DecidableEq

/-- The three coordinate axes of the destination lattice. -/
structure Grid3 where
  xAxis : List ℚ
  yAxis : List ℚ
  zAxis : List ℚ

/-- Modelled from the spec: `make_grid` validates every axis description
eagerly at the construction call and fails with `InvalidRangeError` when some
axis has `step ≤ 0` or `min ≥ max`; otherwise it builds the three axes
(the body of `radarx.grid.make_3d_grid` is absent from `src/`). -/
def makeGrid (ax ay az : AxisSpec) : Except GridError Grid3 :=
  if validAxis ax && validAxis ay && validAxis az then
    Except.ok
      ⟨makeAxis ax.lo ax.hi ax.step,
       makeAxis ay.lo ay.hi ay.step,
       makeAxis az.lo az.hi az.step⟩
  else
    Except.error GridError.invalidRange

theorem makeAxis_length (lo hi step : ℚ) :
    (makeAxis lo hi step).length = (⌊(hi - lo) / step⌋).toNat + 1 := by
  simp [makeAxis, axisCount]

theorem makeAxis_getD (lo hi step : ℚ) (i : ℕ)
    (h : i < (makeAxis lo hi step).length) :
    (makeAxis lo hi step).getD i 0 = lo + (i : ℚ) * step := by
  rw [List.getD_eq_getElem _ _ h]
  simp [makeAxis]

/-- C4: grid axis construction builds each axis as the closed arithmetic
sequence `min, min + i·step` up to and including the largest value `≤ max`,
with exactly `floor((max - min)/step) + 1` points for every valid axis
description (`step > 0`, `min < max`); the next point past the end would
exceed `max`. -/
theorem c4_axis_construction (lo hi step : ℚ) (hstep : 0 < step)
    (hlt : lo < hi) :
    (makeAxis lo hi step).length = (⌊(hi - lo) / step⌋).toNat + 1 ∧
    (∀ i, i < (makeAxis lo hi step).length →
      (makeAxis lo hi step).getD i 0 = lo + (i : ℚ) * step) ∧
    (∀ v ∈ makeAxis lo hi step, v ≤ hi) ∧
    hi < lo + ((makeAxis lo hi step).length : ℚ) * step := by
  have hnn : (0 : ℚ) ≤ (hi - lo) / step :=
    div_nonneg (by linarith) (le_of_lt hstep)
  have hfl : (0 : ℤ) ≤ ⌊(hi - lo) / step⌋ := Int.floor_nonneg.mpr hnn
  refine ⟨makeAxis_length lo hi step, makeAxis_getD lo hi step, ?_, ?_⟩
  · intro v hv
    simp only [makeAxis, List.mem_map, List.mem_range] at hv
    obtain ⟨i, hi_lt, rfl⟩ := hv
    have hle : (i : ℤ) ≤ ⌊(hi - lo) / step⌋ := by
      have : (i : ℤ) < (⌊(hi - lo) / step⌋).toNat + 1 := by exact_mod_cast hi_lt
      omega
    have hcast : (i : ℚ) ≤ (hi - lo) / step := by
      calc (i : ℚ) = ((i : ℤ) : ℚ) := by norm_cast
      _ ≤ (⌊(hi - lo) / step⌋ : ℚ) := by exact_mod_cast hle
      _ ≤ (hi - lo) / step := Int.floor_le _
    have : (i : ℚ) * step ≤ hi - lo := by
      have := mul_le_mul_of_nonneg_right hcast (le_of_lt hstep)
      rwa [div_mul_cancel₀ _ (ne_of_gt hstep)] at this
    linarith
  · rw [makeAxis_length]
    have hlt2 : (hi - lo) / step < (⌊(hi - lo) / step⌋ : ℚ) + 1 :=
      Int.lt_floor_add_one _
    have htn : ((⌊(hi - lo) / step⌋).toNat : ℤ) = ⌊(hi - lo) / step⌋ :=
      Int.toNat_of_nonneg hfl
    have hcast : (((⌊(hi - lo) / step⌋).toNat + 1 : ℕ) : ℚ)
        = (⌊(hi - lo) / step⌋ : ℚ) + 1 := by
      have h2 : (((⌊(hi - lo) / step⌋).toNat : ℕ) : ℚ)
          = ((⌊(hi - lo) / step⌋ : ℤ) : ℚ) := by
        exact_mod_cast congrArg (fun z : ℤ => (z : ℚ)) htn
      push_cast
      rw [h2]
    rw [hcast]
    have := mul_lt_mul_of_pos_right hlt2 hstep
    rw [div_mul_cancel₀ _ (ne_of_gt hstep)] at this
    linarith

/-- C4 witness: the axis description `x_lim = (-1000, 1000)`, `x_step = 500`
is valid and yields exactly the 5-point axis `[-1000, -500, 0, 500, 1000]`. -/
theorem c4_axis_construction_witness :
    (0 : ℚ) < 500 ∧ (-1000 : ℚ) < 1000 ∧
    (makeAxis (-1000) 1000 500).length = (⌊((1000 : ℚ) - -1000) / 500⌋).toNat + 1 ∧
    makeAxis (-1000) 1000 500 = [-1000, -500, 0, 500, 1000] := by
  refine ⟨by norm_num, by norm_num,
    (c4_axis_construction (-1000) 1000 500 (by norm_num) (by norm_num)).1, ?_⟩
  have h4 : ((1000 : ℚ) - -1000) / 500 = ((4 : ℤ) : ℚ) := by norm_num
  rw [makeAxis, axisCount, h4, Int.floor_intCast]
  simp [List.range_succ]
  norm_num

/-- C7: grid construction fails with `InvalidRangeError` exactly when some
axis description has `step ≤ 0` or `min ≥ max`; the validation is the first
thing `makeGrid` does (the result is an `Except` produced before any
interpolation work), and for valid descriptions no error is raised. -/
theorem c7_make_grid_invalid_range (ax ay az : AxisSpec) :
    (makeGrid ax ay az = Except.error GridError.invalidRange ↔
      (ax.step ≤ 0 ∨ ax.hi ≤ ax.lo) ∨ (ay.step ≤ 0 ∨ ay.hi ≤ ay.lo) ∨
      (az.step ≤ 0 ∨ az.hi ≤ az.lo)) ∧
    (¬ ((ax.step ≤ 0 ∨ ax.hi ≤ ax.lo) ∨ (ay.step ≤ 0 ∨ ay.hi ≤ ay.lo) ∨
        (az.step ≤ 0 ∨ az.hi ≤ az.lo)) →
      makeGrid ax ay az = Except.ok
        ⟨makeAxis ax.lo ax.hi ax.step,
         makeAxis ay.lo ay.hi ay.step,
         makeAxis az.lo az.hi az.step⟩) := by
  have hvx : (validAxis ax && validAxis ay && validAxis az) = true ↔
      ((0 < ax.step ∧ ax.lo < ax.hi) ∧ (0 < ay.step ∧ ay.lo < ay.hi) ∧
        (0 < az.step ∧ az.lo < az.hi)) := by
    simp [validAxis, Bool.and_eq_true, and_assoc]
  constructor
  · constructor
    · intro herr
      by_contra hgood
      push_neg at hgood
      obtain ⟨⟨hx1, hx2⟩, ⟨hy1, hy2⟩, hz1, hz2⟩ := hgood
      rw [makeGrid, if_pos (hvx.mpr ⟨⟨hx1, hx2⟩, ⟨hy1, hy2⟩, hz1, hz2⟩)] at herr
      exact Except.noConfusion herr
    · intro hbad
      rw [makeGrid, if_neg]
      intro hv
      obtain ⟨⟨hx1, hx2⟩, ⟨hy1, hy2⟩, hz1, hz2⟩ := hvx.mp hv
      rcases hbad with (h | h) | (h | h) | (h | h) <;> linarith
  · intro hgood
    push_neg at hgood
    obtain ⟨⟨hx1, hx2⟩, ⟨hy1, hy2⟩, hz1, hz2⟩ := hgood
    rw [makeGrid, if_pos (hvx.mpr ⟨⟨hx1, hx2⟩, ⟨hy1, hy2⟩, hz1, hz2⟩)]

/-! ## Weighted interpolation engine -/

/-- One flattened radar sample: its position in the radar-centered Cartesian
frame (meters) and the moment value it carries. -/
structure RadarPoint where
  x : ℝ
  y : ℝ
  z : ℝ
  val : ℝ
deriving Inhabited

/-- The three per-axis non-negative smoothing scalars of the Barnes-style
interpolation kernel. -/
structure SmoothingParams where
  xs : ℝ
  ys : ℝ
  zs : ℝ

/-- Center of one target grid cell. -/
structure GridCell where
  x : ℝ
  y : ℝ
  z : ℝ
deriving Inhabited

open scoped Classical in
/-- Modelled from the spec: the per-axis kernel factor of the weighted
interpolation engine (the engine behind `radarx` `to_grid` is absent from
`src/`; only its notebook callers are present). For a nonzero smoothing
scalar the factor is the Gaussian `exp(-(d/σ)²)`; a smoothing scalar of
exactly zero does not divide by zero but degenerates the axis to
nearest-point behavior: weight 1 when the point is nearest to the cell
center on that axis, 0 otherwise. -/
noncomputable def axisWeight (σ d : ℝ) (nearest : Prop) : ℝ :=
  if σ = 0 then (if nearest then 1 else 0) else Real.exp (-(d / σ) ^ 2)

/-- Modelled from the spec: full weight of one source point at one target
cell, the product of the three per-axis kernel factors. -/
noncomputable def pointWeight (sp : SmoothingParams) (c : GridCell)
    (pts : List RadarPoint) (p : RadarPoint) : ℝ :=
  axisWeight sp.xs (p.x - c.x) (∀ q ∈ pts, |p.x - c.x| ≤ |q.x - c.x|) *
    axisWeight sp.ys (p.y - c.y) (∀ q ∈ pts, |p.y - c.y| ≤ |q.y - c.y|) *
    axisWeight sp.zs (p.z - c.z) (∀ q ∈ pts, |p.z - c.z| ≤ |q.z - c.z|)

/-- The separable anisotropic Gaussian kernel exactly as the spec writes it:
`exp(-(dx/σx)² - (dy/σy)² - (dz/σz)²)` for a point at offset
`(dx, dy, dz)` from the cell center. -/
noncomputable def gaussKernel (sp : SmoothingParams) (c : GridCell)
    (p : RadarPoint) : ℝ :=
  Real.exp (-((p.x - c.x) / sp.xs) ^ 2 - ((p.y - c.y) / sp.ys) ^ 2 -
    ((p.z - c.z) / sp.zs) ^ 2)

/-- Total weight received by one target cell. -/
noncomputable def totalWeight (sp : SmoothingParams) (c : GridCell)
    (pts : List RadarPoint) : ℝ :=
  (pts.map (pointWeight sp c pts)).sum

/-- Weighted sum of the moment values received by one target cell. -/
noncomputable def weightedSum (sp : SmoothingParams) (c : GridCell)
    (pts : List RadarPoint) : ℝ :=
  (pts.map (fun p => pointWeight sp c pts p * p.val)).sum

open scoped Classical in
/-- Modelled from the spec: value of one target cell, the weighted average
of all source points; a cell receiving zero total weight is marked
"no data" (`none`), never the numeric value zero. -/
noncomputable def cellValue (sp : SmoothingParams) (c : GridCell)
    (pts : List RadarPoint) : Option ℝ :=
  if totalWeight sp c pts = 0 then none
  else some (weightedSum sp c pts / totalWeight sp c pts)

/-- Modelled from the spec: volumetric gridding of a point cloud onto a list
of target cells; each cell is computed independently. -/
noncomputable def interpolateGrid (sp : SmoothingParams)
    (cells : List GridCell) (pts : List RadarPoint) : List (Option ℝ) :=
  cells.map (fun c => cellValue sp c pts)

/-- One gate of a georeferenced sweep: Cartesian coordinates plus a possibly
missing moment value. -/
structure Gate where
  x : ℝ
  y : ℝ
  z : ℝ
  val : Option ℝ

/-- Modelled from the spec: sweep flattening drops gates whose moment value
is missing or invalid, so they never contribute to the weighted average. -/
def flatten (gates : List Gate) : List RadarPoint :=
  gates.filterMap (fun g => g.val.map (fun v => ⟨g.x, g.y, g.z, v⟩))

theorem pointWeight_eq_gaussKernel (sp : SmoothingParams) (c : GridCell)
    (pts : List RadarPoint) (p : RadarPoint) (hx : sp.xs ≠ 0)
    (hy : sp.ys ≠ 0) (hz : sp.zs ≠ 0) :
    pointWeight sp c pts p = gaussKernel sp c p := by
  unfold pointWeight axisWeight gaussKernel
  rw [if_neg hx, if_neg hy, if_neg hz, ← Real.exp_add, ← Real.exp_add]
  exact congrArg Real.exp (by ring)

theorem totalWeight_pos (sp : SmoothingParams) (c : GridCell)
    (pts : List RadarPoint) (hx : sp.xs ≠ 0) (hy : sp.ys ≠ 0)
    (hz : sp.zs ≠ 0) (hne : pts ≠ []) :
    0 < totalWeight sp c pts := by
  unfold totalWeight
  refine List.sum_pos _ ?_ (by simpa using hne)
  intro w hw
  obtain ⟨p, hp, rfl⟩ := List.mem_map.mp hw
  rw [pointWeight_eq_gaussKernel sp c pts p hx hy hz]
  exact Real.exp_pos _

/-- C1: in volumetric mode the value of every target cell is the weighted
average of all source points, each weighted by the separable anisotropic
Gaussian `exp(-(dx/σx)² - (dy/σy)² - (dz/σz)²)` with the σ taken from
SmoothingParams; in particular, when all points coincide exactly with the
cell center each gets weight 1 and the cell value is their arithmetic
mean. -/
theorem c1_volumetric_weighted_average (sp : SmoothingParams) (c : GridCell)
    (pts : List RadarPoint) (hx : sp.xs ≠ 0) (hy : sp.ys ≠ 0)
    (hz : sp.zs ≠ 0) (hne : pts ≠ []) :
    cellValue sp c pts =
      some ((pts.map (fun p => gaussKernel sp c p * p.val)).sum /
        (pts.map (gaussKernel sp c)).sum) ∧
    ((∀ p ∈ pts, p.x = c.x ∧ p.y = c.y ∧ p.z = c.z) →
      (∀ p ∈ pts, pointWeight sp c pts p = 1) ∧
      cellValue sp c pts =
        some ((pts.map RadarPoint.val).sum / (pts.length : ℝ))) := by
  have hmap1 : pts.map (pointWeight sp c pts) = pts.map (gaussKernel sp c) :=
    List.map_congr_left fun p _ => pointWeight_eq_gaussKernel sp c pts p hx hy hz
  have hmap2 : pts.map (fun p => pointWeight sp c pts p * p.val) =
      pts.map (fun p => gaussKernel sp c p * p.val) :=
    List.map_congr_left fun p _ => by
      rw [pointWeight_eq_gaussKernel sp c pts p hx hy hz]
  have htot : totalWeight sp c pts ≠ 0 :=
    ne_of_gt (totalWeight_pos sp c pts hx hy hz hne)
  constructor
  · unfold cellValue
    rw [if_neg htot]
    unfold weightedSum totalWeight
    rw [hmap1, hmap2]
  · intro hcen
    have hw1 : ∀ p ∈ pts, pointWeight sp c pts p = 1 := by
      intro p hp
      rw [pointWeight_eq_gaussKernel sp c pts p hx hy hz]
      obtain ⟨h1, h2, h3⟩ := hcen p hp
      unfold gaussKernel
      rw [h1, h2, h3]
      simp
    refine ⟨hw1, ?_⟩
    have htote : totalWeight sp c pts = (pts.length : ℝ) := by
      unfold totalWeight
      rw [List.sum_eq_card_nsmul (pts.map (pointWeight sp c pts)) 1 ?_]
      · simp
      · intro w hw
        obtain ⟨p, hp, rfl⟩ := List.mem_map.mp hw
        exact hw1 p hp
    have hws : weightedSum sp c pts = (pts.map RadarPoint.val).sum := by
      unfold weightedSum
      refine congrArg List.sum (List.map_congr_left fun p hp => ?_)
      rw [hw1 p hp, one_mul]
    unfold cellValue
    rw [if_neg htot, hws, htote]

/-- C1 witness: two source points sitting exactly on the cell center with
values 1 and 3 give the cell their arithmetic mean 2. -/
theorem c1_volumetric_weighted_average_witness :
    cellValue ⟨1, 1, 1⟩ ⟨0, 0, 0⟩ [⟨0, 0, 0, 1⟩, ⟨0, 0, 0, 3⟩] = some 2 := by
  have h := (c1_volumetric_weighted_average ⟨1, 1, 1⟩ ⟨0, 0, 0⟩
      [⟨0, 0, 0, 1⟩, ⟨0, 0, 0, 3⟩] (by norm_num) (by norm_num) (by norm_num)
      (by simp)).2 (by
        intro p hp
        simp only [List.mem_cons, List.not_mem_nil, or_false] at hp
        rcases hp with rfl | rfl <;> exact ⟨rfl, rfl, rfl⟩)
  rw [h.2]
  norm_num

/-- C2: a cell receiving zero total weight is marked "no data" (`none`),
never the numeric value zero; an empty point cloud, and a point cloud all of
whose gates are invalid and hence dropped by flattening, yield a fully
"no data" grid, and no error is raised (the interpolation is total). -/
theorem c2_empty_input_no_data (sp : SmoothingParams) (c : GridCell)
    (pts : List RadarPoint) (cells : List GridCell) (gates : List Gate) :
    (totalWeight sp c pts = 0 → cellValue sp c pts = none) ∧
    interpolateGrid sp cells [] = List.replicate cells.length none ∧
    ((∀ g ∈ gates, g.val = none) →
      interpolateGrid sp cells (flatten gates) =
        List.replicate cells.length none) := by
  have hnil : ∀ c0 : GridCell, cellValue sp c0 [] = none := by
    intro c0
    unfold cellValue
    rw [if_pos]
    unfold totalWeight
    simp
  have hgrid : interpolateGrid sp cells [] = List.replicate cells.length none := by
    unfold interpolateGrid
    have : (fun c0 => cellValue sp c0 ([] : List RadarPoint)) =
        (fun _ : GridCell => (none : Option ℝ)) := funext hnil
    rw [this]
    exact List.map_const' cells none
  refine ⟨?_, hgrid, ?_⟩
  · intro h0
    unfold cellValue
    rw [if_pos h0]
  · intro hg
    have hfl : flatten gates = [] := by
      unfold flatten
      rw [List.filterMap_eq_nil_iff]
      intro g hmem
      rw [hg g hmem]
      rfl
    rw [hfl]
    exact hgrid

/-- C2 witness: with an empty point cloud the single target cell has zero
total weight and is marked "no data", and both the empty cloud and a
fully invalid one-gate sweep grid to an all-"no data" grid. -/
theorem c2_empty_input_no_data_witness :
    cellValue ⟨1, 1, 1⟩ ⟨0, 0, 0⟩ [] = none ∧
    interpolateGrid ⟨1, 1, 1⟩ [⟨0, 0, 0⟩] [] = [none] ∧
    interpolateGrid ⟨1, 1, 1⟩ [⟨0, 0, 0⟩] (flatten [⟨4, 5, 6, none⟩]) =
      [none] := by
  have h := c2_empty_input_no_data ⟨1, 1, 1⟩ ⟨0, 0, 0⟩ [] [⟨0, 0, 0⟩]
    [⟨4, 5, 6, none⟩]
  exact ⟨h.1 (by unfold totalWeight; simp), h.2.1,
    h.2.2 (by intro g hg; simp only [List.mem_cons, List.not_mem_nil,
      or_false] at hg; rw [hg])⟩

theorem pointWeight_perm (sp : SmoothingParams) (c : GridCell)
    {pts pts' : List RadarPoint} (h : pts.Perm pts') (p : RadarPoint) :
    pointWeight sp c pts p = pointWeight sp c pts' p := by
  unfold pointWeight
  simp only [h.mem_iff]

theorem totalWeight_perm (sp : SmoothingParams) (c : GridCell)
    {pts pts' : List RadarPoint} (h : pts.Perm pts') :
    totalWeight sp c pts = totalWeight sp c pts' := by
  unfold totalWeight
  have hfun : pointWeight sp c pts' = pointWeight sp c pts :=
    funext fun p => (pointWeight_perm sp c h p).symm
  rw [hfun]
  exact (h.map (pointWeight sp c pts)).sum_eq

theorem weightedSum_perm (sp : SmoothingParams) (c : GridCell)
    {pts pts' : List RadarPoint} (h : pts.Perm pts') :
    weightedSum sp c pts = weightedSum sp c pts' := by
  unfold weightedSum
  have hfun : pointWeight sp c pts' = pointWeight sp c pts :=
    funext fun p => (pointWeight_perm sp c h p).symm
  rw [hfun]
  exact (h.map fun p => pointWeight sp c pts p * p.val).sum_eq

theorem cellValue_perm (sp : SmoothingParams) (c : GridCell)
    {pts pts' : List RadarPoint} (h : pts.Perm pts') :
    cellValue sp c pts = cellValue sp c pts' := by
  unfold cellValue
  rw [totalWeight_perm sp c h, weightedSum_perm sp c h]

/-- C3: interpolation is invariant to the order of the input point cloud:
a point cloud and any permutation of it produce identical gridded fields;
in particular the order in which two flattened sweeps are concatenated
during merge does not affect the result. -/
theorem c3_order_invariance (sp : SmoothingParams) (cells : List GridCell)
    {pts pts' : List RadarPoint} (h : pts.Perm pts')
    (a b : List RadarPoint) :
    interpolateGrid sp cells pts = interpolateGrid sp cells pts' ∧
    interpolateGrid sp cells (a ++ b) = interpolateGrid sp cells (b ++ a) := by
  constructor
  · unfold interpolateGrid
    exact List.map_congr_left fun c _ => cellValue_perm sp c h
  · unfold interpolateGrid
    exact List.map_congr_left fun c _ => cellValue_perm sp c List.perm_append_comm

/-- C3 witness: swapping the two points of a concrete cloud, and swapping
the concatenation order of two one-point sweeps, leave the gridded field
unchanged. -/
theorem c3_order_invariance_witness :
    interpolateGrid ⟨1, 1, 1⟩ [⟨0, 0, 0⟩] [⟨1, 2, 3, 4⟩, ⟨5, 6, 7, 8⟩] =
      interpolateGrid ⟨1, 1, 1⟩ [⟨0, 0, 0⟩] [⟨5, 6, 7, 8⟩, ⟨1, 2, 3, 4⟩] ∧
    interpolateGrid ⟨1, 1, 1⟩ [⟨0, 0, 0⟩] ([⟨1, 2, 3, 4⟩] ++ [⟨5, 6, 7, 8⟩]) =
      interpolateGrid ⟨1, 1, 1⟩ [⟨0, 0, 0⟩] ([⟨5, 6, 7, 8⟩] ++ [⟨1, 2, 3, 4⟩]) :=
  c3_order_invariance ⟨1, 1, 1⟩ [⟨0, 0, 0⟩]
    (List.Perm.swap ((⟨5, 6, 7, 8⟩ : RadarPoint)) ⟨1, 2, 3, 4⟩ [])
    [⟨1, 2, 3, 4⟩] [⟨5, 6, 7, 8⟩]

theorem sum_map_eq_of_single {α : Type} (f : α → ℝ) (p : α)
    (l : List α) (hpl : p ∈ l) (hndl : l.Nodup)
    (hzl : ∀ q ∈ l, q ≠ p → f q = 0) : (l.map f).sum = f p := by
  induction l with
  | nil => exact absurd hpl (List.not_mem_nil p)
  | cons a t ih =>
    rcases List.mem_cons.mp hpl with h | h
    · subst h
      rw [List.map_cons, List.sum_cons]
      have hpt : p ∉ t := (List.nodup_cons.mp hndl).1
      have hzero : (t.map f).sum = 0 := by
        apply List.sum_eq_zero
        intro x hx
        obtain ⟨q, hq, rfl⟩ := List.mem_map.mp hx
        have hqp : q ≠ p := fun he => hpt (he ▸ hq)
        exact hzl q (List.mem_cons_of_mem p hq) hqp
      rw [hzero, add_zero]
    · have ha : a ≠ p := by
        intro he
        subst he
        exact (List.nodup_cons.mp hndl).1 h
      rw [List.map_cons, List.sum_cons, hzl a (List.mem_cons_self a t) ha,
        zero_add]
      exact ih h (List.nodup_cons.mp hndl).2
        fun q hq hqp => hzl q (List.mem_cons_of_mem a hq) hqp

/-- C5: with all three smoothing parameters exactly zero, no division by
zero occurs and gridding degenerates to nearest-neighbor: a cell whose
single nearest source point (strictly nearest on each axis) is `p` takes
exactly the value of `p`. -/
theorem c5_zero_smoothing_nearest_neighbor (c : GridCell)
    (pts : List RadarPoint) (p : RadarPoint) (hp : p ∈ pts)
    (hnd : pts.Nodup)
    (hnear : ∀ q ∈ pts, q ≠ p →
      |p.x - c.x| < |q.x - c.x| ∧ |p.y - c.y| < |q.y - c.y| ∧
        |p.z - c.z| < |q.z - c.z|) :
    cellValue ⟨0, 0, 0⟩ c pts = some p.val := by
  have hnx : ∀ q ∈ pts, |p.x - c.x| ≤ |q.x - c.x| := by
    intro q hq
    by_cases hqp : q = p
    · subst hqp; exact le_refl _
    · exact le_of_lt (hnear q hq hqp).1
  have hny : ∀ q ∈ pts, |p.y - c.y| ≤ |q.y - c.y| := by
    intro q hq
    by_cases hqp : q = p
    · subst hqp; exact le_refl _
    · exact le_of_lt (hnear q hq hqp).2.1
  have hnz : ∀ q ∈ pts, |p.z - c.z| ≤ |q.z - c.z| := by
    intro q hq
    by_cases hqp : q = p
    · subst hqp; exact le_refl _
    · exact le_of_lt (hnear q hq hqp).2.2
  have hwp : pointWeight ⟨0, 0, 0⟩ c pts p = 1 := by
    unfold pointWeight axisWeight
    rw [if_pos rfl, if_pos rfl, if_pos rfl, if_pos hnx, if_pos hny,
      if_pos hnz]
    norm_num
  have hwq : ∀ q ∈ pts, q ≠ p → pointWeight ⟨0, 0, 0⟩ c pts q = 0 := by
    intro q hq hqp
    have hnotx : ¬ (∀ r ∈ pts, |q.x - c.x| ≤ |r.x - c.x|) := by
      intro hall
      exact absurd (hall p hp) (not_le.mpr (hnear q hq hqp).1)
    unfold pointWeight axisWeight
    rw [if_pos rfl, if_pos rfl, if_pos rfl, if_neg hnotx]
    ring
  have htot : totalWeight ⟨0, 0, 0⟩ c pts = 1 := by
    unfold totalWeight
    rw [sum_map_eq_of_single _ p pts hp hnd hwq, hwp]
  have hws : weightedSum ⟨0, 0, 0⟩ c pts = p.val := by
    unfold weightedSum
    rw [sum_map_eq_of_single _ p pts hp hnd
      (fun q hq hqp => by rw [hwq q hq hqp, zero_mul]), hwp, one_mul]
  unfold cellValue
  rw [htot, hws, if_neg one_ne_zero, div_one]

/-- C5 witness: with zero smoothing on every axis and a cloud of two
points, the cell takes the value 5 of its strictly nearest point. -/
theorem c5_zero_smoothing_nearest_neighbor_witness :
    cellValue ⟨0, 0, 0⟩ ⟨0, 0, 0⟩ [⟨1, 1, 1, 5⟩, ⟨2, 2, 2, 9⟩] = some 5 := by
  refine c5_zero_smoothing_nearest_neighbor ⟨0, 0, 0⟩
    [⟨1, 1, 1, 5⟩, ⟨2, 2, 2, 9⟩] ⟨1, 1, 1, 5⟩ (by simp) ?_ ?_
  · simp only [List.nodup_cons, List.mem_singleton, List.not_mem_nil,
      not_false_iff, List.nodup_nil, and_true, RadarPoint.mk.injEq]
    norm_num
  · intro q hq hqp
    simp only [List.mem_cons, List.not_mem_nil, or_false] at hq
    rcases hq with rfl | rfl
    · exact absurd rfl hqp
    · norm_num

/-! ## Range and elevation envelope of `interpolate_to_grid` -/

/-- Polar position of one target grid cell relative to the radar site:
range from the site and elevation angle, as computed by the gridder for its
envelope test. -/
structure PolarCell where
  r : ℝ
  elev : ℝ
deriving Inhabited

/-- Modelled from the spec and the notebook call: the hard geometric
envelope that `interpolate_to_grid` fixes through `maxrange`, `minelev` and
`maxelev` (the CAPPI gridder receiving them lives in the external wradlib
collaborator): a target cell is covered only when its range from the site is
at most `maxrange` and its elevation lies in `[minelev, maxelev]`. -/
def inEnvelope (maxrange minelev maxelev : ℝ) (pc : PolarCell) : Prop :=
  pc.r ≤ maxrange ∧ minelev ≤ pc.elev ∧ pc.elev ≤ maxelev

open scoped Classical in
/-- Modelled from the spec: volumetric interpolation with the hard cutoff of
`interpolate_to_grid`: a cell inside the envelope takes its weighted-average
value, a cell outside the envelope is marked invalid. -/
noncomputable def interpolateToGrid (maxrange minelev maxelev : ℝ)
    (sp : SmoothingParams) (cells : List (GridCell × PolarCell))
    (pts : List RadarPoint) : List (Option ℝ) :=
  cells.map fun cp =>
    if inEnvelope maxrange minelev maxelev cp.2 then cellValue sp cp.1 pts
    else none

/-- C10: every target cell lying outside the caller-fixed range/elevation
envelope is marked invalid ("no data"), regardless of the smoothing
parameters and of the point cloud. -/
theorem c10_envelope_cutoff (maxrange minelev maxelev : ℝ)
    (sp : SmoothingParams) (cells : List (GridCell × PolarCell))
    (pts : List RadarPoint) (i : ℕ) (hilen : i < cells.length)
    (hout : ¬ inEnvelope maxrange minelev maxelev (cells.getD i default).2) :
    (interpolateToGrid maxrange minelev maxelev sp cells pts).getD i none =
      none := by
  unfold interpolateToGrid
  rw [List.getD_eq_getElem _ _ (by simpa using hilen), List.getElem_map]
  rw [List.getD_eq_getElem _ _ hilen] at hout
  exact if_neg hout

/-- C10 witness: a cell at range 200 km when `maxrange` is 100 km is marked
invalid even with nonzero smoothing and a nonempty point cloud. -/
theorem c10_envelope_cutoff_witness :
    (interpolateToGrid 100000 0.5 20 ⟨1, 1, 1⟩
      [(⟨0, 0, 0⟩, ⟨200000, 5⟩)] [⟨0, 0, 0, 7⟩]).getD 0 none = none := by
  refine c10_envelope_cutoff 100000 0.5 20 ⟨1, 1, 1⟩
    [(⟨0, 0, 0⟩, ⟨200000, 5⟩)] [⟨0, 0, 0, 7⟩] 0 (by simp) ?_
  unfold inEnvelope
  norm_num

/-! ## Grid assembly: setup_grid and create_dataset of the wradlib notebook -/

/-- Flattened product grid of the three axes in z-major order, one entry
`(x, y, z)` per target point: the embedding of
`wrl.util.gridaspoints(z, y, x)` as `setup_grid` builds it. -/
def gridaspoints (zax yax xax : List ℚ) : List (ℚ × ℚ × ℚ) :=
  zax.flatMap fun zv => yax.flatMap fun yv => xax.map fun xv => (xv, yv, zv)

/-- Embedding of `setup_grid`: the target points and the target shape
`(len z, len y, len x)`. -/
def setupGrid (zax yax xax : List ℚ) :
    List (ℚ × ℚ × ℚ) × (ℕ × ℕ × ℕ) :=
  (gridaspoints zax yax xax, (zax.length, yax.length, xax.length))

/-- The x axis as `create_dataset` recovers it from the flattened target
points: the x entries of the rows `[0, 0, :]` of the reshaped array. -/
def sliceX (trgxyz : List (ℚ × ℚ × ℚ)) (nx : ℕ) : List ℚ :=
  (List.range nx).map fun k => (trgxyz.getD k (0, 0, 0)).1

/-- The y axis as `create_dataset` recovers it: the y entries of the rows
`[0, :, 0]`. -/
def sliceY (trgxyz : List (ℚ × ℚ × ℚ)) (nx ny : ℕ) : List ℚ :=
  (List.range ny).map fun j => (trgxyz.getD (j * nx) (0, 0, 0)).2.1

/-- The z axis as `create_dataset` recovers it: the z entries of the rows
`[:, 0, 0]`. -/
def sliceZ (trgxyz : List (ℚ × ℚ × ℚ)) (nx ny nz : ℕ) : List ℚ :=
  (List.range nz).map fun i => (trgxyz.getD (i * (ny * nx)) (0, 0, 0)).2.2

theorem plane_length (xax yax : List ℚ) (zv : ℚ) :
    (yax.flatMap fun yv => xax.map fun xv => (xv, yv, zv)).length =
      yax.length * xax.length := by
  induction yax with
  | nil => simp
  | cons y ys ih =>
    rw [List.flatMap_cons, List.length_append, List.length_map, ih,
      List.length_cons, Nat.succ_mul, Nat.add_comm]

theorem plane_getD (xax yax : List ℚ) (zv : ℚ) (j k : ℕ)
    (hj : j < yax.length) (hk : k < xax.length) :
    (yax.flatMap fun yv => xax.map fun xv => (xv, yv, zv)).getD
        (j * xax.length + k) (0, 0, 0) =
      (xax.getD k 0, yax.getD j 0, zv) := by
  induction yax generalizing j with
  | nil => exact absurd hj (by simp)
  | cons y ys ih =>
    rw [List.flatMap_cons]
    cases j with
    | zero =>
      rw [Nat.zero_mul, Nat.zero_add]
      rw [List.getD_append _ _ _ _ (by simpa using hk)]
      rw [List.getD_eq_getElem _ _ (by simpa using hk), List.getElem_map]
      rw [List.getD_eq_getElem _ _ hk]
      rfl
    | succ j' =>
      have hlen : (xax.map fun xv => (xv, y, zv)).length = xax.length := by
        simp
      have hge : (xax.map fun xv => (xv, y, zv)).length ≤
          (j' + 1) * xax.length + k := by
        rw [hlen, Nat.succ_mul]
        omega
      rw [List.getD_append_right _ _ _ _ hge, hlen]
      have harith : (j' + 1) * xax.length + k - xax.length =
          j' * xax.length + k := by
        rw [Nat.succ_mul]
        omega
      rw [harith, List.getD_cons_succ]
      exact ih j' (by simpa using hj)

theorem gridaspoints_getD (zax yax xax : List ℚ) (i j k : ℕ)
    (hi : i < zax.length) (hj : j < yax.length) (hk : k < xax.length) :
    (gridaspoints zax yax xax).getD
        (i * (yax.length * xax.length) + j * xax.length + k) (0, 0, 0) =
      (xax.getD k 0, yax.getD j 0, zax.getD i 0) := by
  unfold gridaspoints
  induction zax generalizing i with
  | nil => exact absurd hi (by simp)
  | cons z zs ih =>
    rw [List.flatMap_cons]
    cases i with
    | zero =>
      rw [Nat.zero_mul, Nat.zero_add]
      rw [List.getD_append _ _ _ _ (by
        rw [plane_length]
        calc j * xax.length + k < j * xax.length + xax.length := by omega
        _ = (j + 1) * xax.length := (Nat.succ_mul j xax.length).symm
        _ ≤ yax.length * xax.length :=
          Nat.mul_le_mul_right xax.length (by omega))]
      rw [plane_getD xax yax z j k hj hk]
      rfl
    | succ i' =>
      have hge : (yax.flatMap fun yv =>
          xax.map fun xv => (xv, yv, z)).length ≤
          (i' + 1) * (yax.length * xax.length) + j * xax.length + k := by
        rw [plane_length, Nat.succ_mul]
        omega
      rw [List.getD_append_right _ _ _ _ hge, plane_length]
      have harith : (i' + 1) * (yax.length * xax.length) + j * xax.length +
          k - yax.length * xax.length =
          i' * (yax.length * xax.length) + j * xax.length + k := by
        rw [Nat.succ_mul]
        omega
      rw [harith, List.getD_cons_succ]
      exact ih i' (by simpa using hi)

theorem sliceX_setupGrid (zax yax xax : List ℚ) (hz : zax ≠ [])
    (hy : yax ≠ []) :
    sliceX (gridaspoints zax yax xax) xax.length = xax := by
  refine List.ext_getElem (by simp [sliceX]) ?_
  intro k h1 h2
  simp only [sliceX, List.getElem_map, List.getElem_range]
  have hzl : 0 < zax.length := List.length_pos.mpr hz
  have hyl : 0 < yax.length := List.length_pos.mpr hy
  have hval := gridaspoints_getD zax yax xax 0 0 k hzl hyl h2
  simp only [Nat.zero_mul, Nat.zero_add] at hval
  rw [hval]
  exact List.getD_eq_getElem xax 0 h2

theorem sliceY_setupGrid (zax yax xax : List ℚ) (hz : zax ≠ [])
    (hx : xax ≠ []) :
    sliceY (gridaspoints zax yax xax) xax.length yax.length = yax := by
  refine List.ext_getElem (by simp [sliceY]) ?_
  intro j h1 h2
  simp only [sliceY, List.getElem_map, List.getElem_range]
  have hzl : 0 < zax.length := List.length_pos.mpr hz
  have hxl : 0 < xax.length := List.length_pos.mpr hx
  have hval := gridaspoints_getD zax yax xax 0 j 0 hzl h2 hxl
  simp only [Nat.zero_mul, Nat.zero_add, Nat.add_zero] at hval
  rw [hval]
  exact List.getD_eq_getElem yax 0 h2

theorem sliceZ_setupGrid (zax yax xax : List ℚ) (hy : yax ≠ [])
    (hx : xax ≠ []) :
    sliceZ (gridaspoints zax yax xax) xax.length yax.length zax.length =
      zax := by
  refine List.ext_getElem (by simp [sliceZ]) ?_
  intro i h1 h2
  simp only [sliceZ, List.getElem_map, List.getElem_range]
  have hyl : 0 < yax.length := List.length_pos.mpr hy
  have hxl : 0 < xax.length := List.length_pos.mpr hx
  have hval := gridaspoints_getD zax yax xax i 0 0 h2 hyl hxl
  simp only [Nat.zero_mul, Nat.zero_add, Nat.add_zero] at hval
  rw [hval]
  exact List.getD_eq_getElem zax 0 h2

/-- Volume-level metadata of the merged point data as `create_dataset`
reads it: the site coordinates and the per-point acquisition times. -/
structure VolumeMeta where
  longitude : ℚ
  latitude : ℚ
  times : List ℚ

/-- The assembled output dataset: a labeled array with named dims, its
shape, the interpolated values, attached axis coordinates, derived
geographic coordinates and propagated metadata. -/
structure Dataset where
  dims : List String
  shape : List ℕ
  values : List (Option ℚ)
  zc : List ℚ
  yc : List ℚ
  xc : List ℚ
  time : ℚ
  attrs : List (String × String)
  latitude : ℚ
  longitude : ℚ
  lon : List ℚ
  lat : List ℚ

/-- Embedding of `create_dataset` of the wradlib gridding notebook: recovers
the three axes by slicing the flattened target points, applies the inverse
transform `c2g` elementwise to the zipped pairs `(x_i, y_i)` of the two
horizontal axes (numpy broadcasting of two equal-length 1-D arrays),
attaches `lon` as a coordinate along x alone and `lat` along y alone, wraps
the interpolated volume unchanged with dims `("z", "y", "x")`, sets the time
to the mean of the point times and copies the site attributes. The inverse
transform is a parameter because `radarx.utils.cartesian_to_geographic_aeqd`
(which returns the pair `(lon, lat)`) is absent from `src/`. -/
def createDataset (c2g : ℚ → ℚ → ℚ × ℚ) (vol : List (Option ℚ))
    (trgxyz : List (ℚ × ℚ × ℚ)) (nz ny nx : ℕ) (meta : VolumeMeta)
    (attrs : List (String × String)) : Dataset :=
  let trgx := sliceX trgxyz nx
  let trgy := sliceY trgxyz nx ny
  let trgz := sliceZ trgxyz nx ny nz
  let lonlat := (trgx.zip trgy).map fun p => c2g p.1 p.2
  { dims := ["z", "y", "x"]
    shape := [nz, ny, nx]
    values := vol
    zc := trgz
    yc := trgy
    xc := trgx
    time := meta.times.sum / (meta.times.length : ℚ)
    attrs := attrs
    latitude := meta.latitude
    longitude := meta.longitude
    lon := lonlat.map Prod.fst
    lat := lonlat.map Prod.snd }

/-- C9: every gridded output is ordered vertical-first: its shape is
`(len z, len y, len x)`, its dims are labeled `("z", "y", "x")` in that
order, and the coordinate arrays attached under the names z, y, x are
exactly the three grid axes. -/
theorem c9_output_layout (c2g : ℚ → ℚ → ℚ × ℚ) (vol : List (Option ℚ))
    (zax yax xax : List ℚ) (meta : VolumeMeta)
    (attrs : List (String × String)) (hz : zax ≠ []) (hy : yax ≠ [])
    (hx : xax ≠ []) :
    (createDataset c2g vol (setupGrid zax yax xax).1
        (setupGrid zax yax xax).2.1 (setupGrid zax yax xax).2.2.1
        (setupGrid zax yax xax).2.2.2 meta attrs).dims = ["z", "y", "x"] ∧
    (createDataset c2g vol (setupGrid zax yax xax).1
        (setupGrid zax yax xax).2.1 (setupGrid zax yax xax).2.2.1
        (setupGrid zax yax xax).2.2.2 meta attrs).shape =
      [zax.length, yax.length, xax.length] ∧
    (createDataset c2g vol (setupGrid zax yax xax).1
        (setupGrid zax yax xax).2.1 (setupGrid zax yax xax).2.2.1
        (setupGrid zax yax xax).2.2.2 meta attrs).zc = zax ∧
    (createDataset c2g vol (setupGrid zax yax xax).1
        (setupGrid zax yax xax).2.1 (setupGrid zax yax xax).2.2.1
        (setupGrid zax yax xax).2.2.2 meta attrs).yc = yax ∧
    (createDataset c2g vol (setupGrid zax yax xax).1
        (setupGrid zax yax xax).2.1 (setupGrid zax yax xax).2.2.1
        (setupGrid zax yax xax).2.2.2 meta attrs).xc = xax := by
  refine ⟨rfl, rfl, ?_, ?_, ?_⟩
  · exact sliceZ_setupGrid zax yax xax hy hx
  · exact sliceY_setupGrid zax yax xax hz hx
  · exact sliceX_setupGrid zax yax xax hz hy

/-- C9 witness: a concrete 1×1×1 grid is packaged with dims
`("z", "y", "x")`, shape `(1, 1, 1)` and its axes attached. -/
theorem c9_output_layout_witness :
    (createDataset (fun a b => (a, b)) [some 3] (setupGrid [0] [1] [2]).1
        (setupGrid [0] [1] [2]).2.1 (setupGrid [0] [1] [2]).2.2.1
        (setupGrid [0] [1] [2]).2.2.2 ⟨10, 20, [0]⟩ []).dims =
      ["z", "y", "x"] ∧
    (createDataset (fun a b => (a, b)) [some 3] (setupGrid [0] [1] [2]).1
        (setupGrid [0] [1] [2]).2.1 (setupGrid [0] [1] [2]).2.2.1
        (setupGrid [0] [1] [2]).2.2.2 ⟨10, 20, [0]⟩ []).shape = [1, 1, 1] ∧
    (createDataset (fun a b => (a, b)) [some 3] (setupGrid [0] [1] [2]).1
        (setupGrid [0] [1] [2]).2.1 (setupGrid [0] [1] [2]).2.2.1
        (setupGrid [0] [1] [2]).2.2.2 ⟨10, 20, [0]⟩ []).zc = [0] ∧
    (createDataset (fun a b => (a, b)) [some 3] (setupGrid [0] [1] [2]).1
        (setupGrid [0] [1] [2]).2.1 (setupGrid [0] [1] [2]).2.2.1
        (setupGrid [0] [1] [2]).2.2.2 ⟨10, 20, [0]⟩ []).yc = [1] ∧
    (createDataset (fun a b => (a, b)) [some 3] (setupGrid [0] [1] [2]).1
        (setupGrid [0] [1] [2]).2.1 (setupGrid [0] [1] [2]).2.2.1
        (setupGrid [0] [1] [2]).2.2.2 ⟨10, 20, [0]⟩ []).xc = [2] :=
  c9_output_layout (fun a b => (a, b)) [some 3] [0] [1] [2] ⟨10, 20, [0]⟩ []
    (by simp) (by simp) (by simp)

/-- C8 counterexample: the claim that assembly computes per-cell geographic
coordinates by applying the inverse transform to every `(x, y)` pair fails:
`lon` is attached along the x axis alone, computed from the zipped diagonal
pairs `(x_i, y_i)`, so for a transform whose longitude depends on both
arguments (as the AEQD inverse does) the cell `(k = 0, j = 1)` carries
`lon = (c2g x_0 y_0).1`, not `(c2g x_0 y_1).1`. -/
theorem c8_per_cell_lonlat_counterexample :
    ¬ (∀ (c2g : ℚ → ℚ → ℚ × ℚ) (vol : List (Option ℚ))
        (zax yax xax : List ℚ) (meta : VolumeMeta)
        (attrs : List (String × String)) (j k : ℕ),
        j < yax.length → k < xax.length →
        (createDataset c2g vol (gridaspoints zax yax xax) zax.length
            yax.length xax.length meta attrs).lon.getD k 0 =
          (c2g (xax.getD k 0) (yax.getD j 0)).1) := by
  intro h
  have hc := h (fun a b => (a + b, a - b)) [] [0] [0, 1] [10, 20]
    ⟨0, 0, []⟩ [] 1 0 (by simp) (by simp)
  norm_num [createDataset, sliceX, sliceY, gridaspoints,
    List.range_succ] at hc

/-- C8 (amended): grid assembly is pure packaging: it attaches the three
axis coordinates, copies the acquisition time (the mean of the point times)
and the site attributes unmodified, and leaves every interpolated value
unchanged; the derived geographic coordinates, however, are one-dimensional:
`lon` (resp. `lat`) is the inverse transform applied elementwise to the
zipped axis pairs `(x_i, y_i)` and attached along the x (resp. y) axis
alone, rather than the transform of every `(x, y)` pair. -/
theorem c8_assembly_pure_packaging (c2g : ℚ → ℚ → ℚ × ℚ)
    (vol : List (Option ℚ)) (zax yax xax : List ℚ) (meta : VolumeMeta)
    (attrs : List (String × String)) (hz : zax ≠ []) (hy : yax ≠ [])
    (hx : xax ≠ []) :
    (createDataset c2g vol (gridaspoints zax yax xax) zax.length yax.length
        xax.length meta attrs).values = vol ∧
    (createDataset c2g vol (gridaspoints zax yax xax) zax.length yax.length
        xax.length meta attrs).zc = zax ∧
    (createDataset c2g vol (gridaspoints zax yax xax) zax.length yax.length
        xax.length meta attrs).yc = yax ∧
    (createDataset c2g vol (gridaspoints zax yax xax) zax.length yax.length
        xax.length meta attrs).xc = xax ∧
    (createDataset c2g vol (gridaspoints zax yax xax) zax.length yax.length
        xax.length meta attrs).time =
      meta.times.sum / (meta.times.length : ℚ) ∧
    (createDataset c2g vol (gridaspoints zax yax xax) zax.length yax.length
        xax.length meta attrs).attrs = attrs ∧
    (createDataset c2g vol (gridaspoints zax yax xax) zax.length yax.length
        xax.length meta attrs).latitude = meta.latitude ∧
    (createDataset c2g vol (gridaspoints zax yax xax) zax.length yax.length
        xax.length meta attrs).longitude = meta.longitude ∧
    (createDataset c2g vol (gridaspoints zax yax xax) zax.length yax.length
        xax.length meta attrs).lon =
      (xax.zip yax).map (fun p => (c2g p.1 p.2).1) ∧
    (createDataset c2g vol (gridaspoints zax yax xax) zax.length yax.length
        xax.length meta attrs).lat =
      (xax.zip yax).map (fun p => (c2g p.1 p.2).2) := by
  have hX : sliceX (gridaspoints zax yax xax) xax.length = xax :=
    sliceX_setupGrid zax yax xax hz hy
  have hY : sliceY (gridaspoints zax yax xax) xax.length yax.length = yax :=
    sliceY_setupGrid zax yax xax hz hx
  refine ⟨rfl, sliceZ_setupGrid zax yax xax hy hx, hY, hX, rfl, rfl, rfl,
    rfl, ?_, ?_⟩
  · show ((((sliceX (gridaspoints zax yax xax) xax.length).zip
        (sliceY (gridaspoints zax yax xax) xax.length yax.length)).map
        fun p => c2g p.1 p.2).map Prod.fst) = _
    rw [hX, hY, List.map_map]
    rfl
  · show ((((sliceX (gridaspoints zax yax xax) xax.length).zip
        (sliceY (gridaspoints zax yax xax) xax.length yax.length)).map
        fun p => c2g p.1 p.2).map Prod.snd) = _
    rw [hX, hY, List.map_map]
    rfl

/-- C8 amended-claim witness: a concrete 1×1×1 assembly copies the volume,
time mean, attributes and site coordinates unchanged and attaches the
elementwise-transformed axis pair. -/
theorem c8_assembly_pure_packaging_witness :
    (createDataset (fun a b => (a + b, a - b)) [some 7]
        (gridaspoints [5] [6] [4]) 1 1 1 ⟨30, 40, [2, 4]⟩
        [("site", "KSGF")]).values = [some 7] ∧
    (createDataset (fun a b => (a + b, a - b)) [some 7]
        (gridaspoints [5] [6] [4]) 1 1 1 ⟨30, 40, [2, 4]⟩
        [("site", "KSGF")]).attrs = [("site", "KSGF")] ∧
    (createDataset (fun a b => (a + b, a - b)) [some 7]
        (gridaspoints [5] [6] [4]) 1 1 1 ⟨30, 40, [2, 4]⟩
        [("site", "KSGF")]).time = 3 ∧
    (createDataset (fun a b => (a + b, a - b)) [some 7]
        (gridaspoints [5] [6] [4]) 1 1 1 ⟨30, 40, [2, 4]⟩
        [("site", "KSGF")]).lon = [10] ∧
    (createDataset (fun a b => (a + b, a - b)) [some 7]
        (gridaspoints [5] [6] [4]) 1 1 1 ⟨30, 40, [2, 4]⟩
        [("site", "KSGF")]).lat = [-2] := by
  obtain ⟨hv, hzc, hyc, hxc, ht, ha, hlat0, hlon0, hlon, hlat⟩ :=
    c8_assembly_pure_packaging (fun a b => (a + b, a - b)) [some 7]
      [5] [6] [4] ⟨30, 40, [2, 4]⟩ [("site", "KSGF")]
      (by simp) (by simp) (by simp)
  simp only [List.length_singleton] at hv ht ha hlon hlat
  refine ⟨hv, ha, ?_, ?_, ?_⟩
  · rw [ht]
    norm_num
  · rw [hlon]
    norm_num [List.zip]
  · rw [hlat]
    norm_num [List.zip]

/-! ## Coordinate transform: the AEQD projection and its inverse -/

open scoped Classical in
/-- Modelled from the spec: the two-argument arctangent used by the inverse
AEQD transform, with the standard quadrant-correcting case split of the
numpy arctan2 it embeds. -/
noncomputable def atan2 (y x : ℝ) : ℝ :=
  if 0 < x then Real.arctan (y / x)
  else if x < 0 ∧ 0 ≤ y then Real.arctan (y / x) + Real.pi
  else if x < 0 ∧ y < 0 then Real.arctan (y / x) - Real.pi
  else if x = 0 ∧ 0 < y then Real.pi / 2
  else if x = 0 ∧ y < 0 then -(Real.pi / 2)
  else 0

open Real in
theorem atan2_polar (r d : ℝ) (hr : 0 < r) (h1 : -π < d) (h2 : d < π) :
    atan2 (r * Real.sin d) (r * Real.cos d) = d := by
  have hrne : r ≠ 0 := ne_of_gt hr
  rcases lt_trichotomy (Real.cos d) 0 with hc | hc | hc
  · -- cos d < 0 : d in (-π, -π/2) or (π/2, π)
    have hx : r * Real.cos d < 0 := mul_neg_of_pos_of_neg hr hc
    have hxnot : ¬ (0 < r * Real.cos d) := not_lt.mpr (le_of_lt hx)
    have hdiv : r * Real.sin d / (r * Real.cos d) = Real.sin d / Real.cos d :=
      mul_div_mul_left (Real.sin d) (Real.cos d) hrne
    rcases le_or_lt 0 (Real.sin d) with hs | hs
    · -- sin d ≥ 0 : d in (π/2, π)
      have hy : 0 ≤ r * Real.sin d := mul_nonneg (le_of_lt hr) hs
      have hdgt : π / 2 < d := by
        by_contra hle
        push_neg at hle
        rcases le_or_lt (-(π / 2)) d with hge | hlt
        · exact absurd (Real.cos_nonneg_of_mem_Icc ⟨hge, hle⟩) (not_le.mpr hc)
        · have : Real.sin d < 0 := Real.sin_neg_of_neg_of_neg_pi_lt
            (by linarith [Real.pi_pos]) h1
          exact absurd hs (not_le.mpr this)
      unfold atan2
      rw [if_neg hxnot, if_pos ⟨hx, hy⟩, hdiv]
      rw [← Real.tan_eq_sin_div_cos, ← Real.tan_sub_pi, Real.arctan_tan]
      · ring
      · linarith [Real.pi_pos]
      · linarith [Real.pi_pos]
    · -- sin d < 0 : d in (-π, -π/2)
      have hy : r * Real.sin d < 0 := mul_neg_of_pos_of_neg hr hs
      have hynot : ¬ (0 ≤ r * Real.sin d) := not_le.mpr hy
      have hdlt : d < -(π / 2) := by
        by_contra hle
        push_neg at hle
        rcases le_or_lt d (π / 2) with hge | hlt
        · exact absurd (Real.cos_nonneg_of_mem_Icc ⟨hle, hge⟩) (not_le.mpr hc)
        · have : 0 < Real.sin d := Real.sin_pos_of_pos_of_lt_pi
            (by linarith [Real.pi_pos]) h2
          exact absurd this (not_lt.mpr (le_of_lt hs))
      unfold atan2
      rw [if_neg hxnot, if_neg (fun h => hynot h.2), if_pos ⟨hx, hy⟩, hdiv]
      rw [← Real.tan_eq_sin_div_cos, ← Real.tan_add_pi, Real.arctan_tan]
      · ring
      · linarith [Real.pi_pos]
      · linarith [Real.pi_pos]
  · -- cos d = 0 : d = ± π/2
    have hx0 : r * Real.cos d = 0 := by rw [hc, mul_zero]
    have hxnot : ¬ (0 < r * Real.cos d) := by rw [hx0]; exact lt_irrefl 0
    obtain ⟨k, hk⟩ := Real.cos_eq_zero_iff.mp hc
    have hkb : (2 * (k : ℝ) + 1) * π / 2 < π := hk ▸ h2
    have hkb2 : -π < (2 * (k : ℝ) + 1) * π / 2 := hk ▸ h1
    have hklt : (2 * k + 1 : ℝ) < 2 := by
      nlinarith [Real.pi_pos, hkb]
    have hkgt : (-2 : ℝ) < 2 * k + 1 := by
      nlinarith [Real.pi_pos, hkb2]
    have hkint : k = 0 ∨ k = -1 := by
      have h1' : (2 * k + 1 : ℤ) < 2 := by exact_mod_cast hklt
      have h2' : (-2 : ℤ) < 2 * k + 1 := by exact_mod_cast hkgt
      omega
    rcases hkint with rfl | rfl
    · have hd : d = π / 2 := by rw [hk]; push_cast; ring
      subst hd
      have hs : Real.sin (π / 2) = 1 := Real.sin_pi_div_two
      have hy : 0 < r * Real.sin (π / 2) := by rw [hs]; simpa using hr
      unfold atan2
      rw [if_neg hxnot, if_neg (fun h => absurd hx0 (ne_of_lt h.1)),
        if_neg (fun h => absurd hx0 (ne_of_lt h.1)), if_pos ⟨hx0, hy⟩]
    · have hd : d = -(π / 2) := by rw [hk]; push_cast; ring
      subst hd
      have hs : Real.sin (-(π / 2)) = -1 := by
        rw [Real.sin_neg, Real.sin_pi_div_two]
      have hy : r * Real.sin (-(π / 2)) < 0 := by
        rw [hs]; simpa using hr
      unfold atan2
      rw [if_neg hxnot, if_neg (fun h => absurd hx0 (ne_of_lt h.1)),
        if_neg (fun h => absurd hx0 (ne_of_lt h.1)),
        if_neg (fun h => absurd h.2 (not_lt.mpr (le_of_lt hy))),
        if_pos ⟨hx0, hy⟩]
  · -- cos d > 0 : d in (-π/2, π/2)
    have hx : 0 < r * Real.cos d := mul_pos hr hc
    have hdiv : r * Real.sin d / (r * Real.cos d) = Real.sin d / Real.cos d :=
      mul_div_mul_left (Real.sin d) (Real.cos d) hrne
    have hb1 : -(π / 2) < d := by
      by_contra hle
      push_neg at hle
      have : Real.cos d ≤ 0 := by
        have := Real.cos_nonpos_of_pi_div_two_le_of_le (x := -d) (by linarith) (by linarith)
        rwa [Real.cos_neg] at this
      exact absurd this (not_le.mpr hc)
    have hb2 : d < π / 2 := by
      by_contra hle
      push_neg at hle
      have : Real.cos d ≤ 0 :=
        Real.cos_nonpos_of_pi_div_two_le_of_le hle (by linarith)
      exact absurd this (not_le.mpr hc)
    unfold atan2
    rw [if_pos hx, hdiv, ← Real.tan_eq_sin_div_cos, Real.arctan_tan hb1 hb2]

/-- Modelled from the spec: the forward transform of the coordinate module
(absent from `src/`; only notebook callers are present), the azimuthal
equidistant projection centered at the site `(lat0, lon0)` on a sphere of
radius `R`, mapping a geographic point to site-relative Cartesian `(x, y)`
in meters; angles are in radians (the degree wrappers are linear
rescalings). -/
noncomputable def geographic_to_cartesian_aeqd (R lat0 lon0 lat lon : ℝ) :
    ℝ × ℝ :=
  let cosc := Real.sin lat0 * Real.sin lat +
    Real.cos lat0 * Real.cos lat * Real.cos (lon - lon0)
  let c := Real.arccos cosc
  let k := c / Real.sin c
  (R * k * (Real.cos lat * Real.sin (lon - lon0)),
   R * k * (Real.cos lat0 * Real.sin lat -
     Real.sin lat0 * Real.cos lat * Real.cos (lon - lon0)))

/-- Modelled from the spec: the inverse AEQD transform
`cartesian_to_geographic`, recovering the geographic coordinate `(lat, lon)`
of a site-relative Cartesian point; `radarx.utils.cartesian_to_geographic_aeqd`
is absent from `src/`. -/
noncomputable def cartesian_to_geographic_aeqd (R lat0 lon0 x y : ℝ) :
    ℝ × ℝ :=
  let ρ := Real.sqrt (x ^ 2 + y ^ 2)
  let c := ρ / R
  (Real.arcsin (Real.cos c * Real.sin lat0 +
     y * Real.sin c * Real.cos lat0 / ρ),
   lon0 + atan2 (x * Real.sin c)
     (ρ * Real.cos c * Real.cos lat0 - y * Real.sin c * Real.sin lat0))

open Real in
theorem aeqd_round_trip (R lat0 lon0 lat lon : ℝ) (hR : 0 < R)
    (hlat : |lat| < π / 2)
    (hd1 : -π < lon - lon0) (hd2 : lon - lon0 < π)
    (hc1 : -1 < Real.sin lat0 * Real.sin lat +
      Real.cos lat0 * Real.cos lat * Real.cos (lon - lon0))
    (hc2 : Real.sin lat0 * Real.sin lat +
      Real.cos lat0 * Real.cos lat * Real.cos (lon - lon0) < 1) :
    cartesian_to_geographic_aeqd R lat0 lon0
      (geographic_to_cartesian_aeqd R lat0 lon0 lat lon).1
      (geographic_to_cartesian_aeqd R lat0 lon0 lat lon).2 = (lat, lon) := by
  simp only [geographic_to_cartesian_aeqd, cartesian_to_geographic_aeqd]
  have h1 : Real.sin lat ^ 2 + Real.cos lat ^ 2 = 1 := Real.sin_sq_add_cos_sq lat
  have h2 : Real.sin lat0 ^ 2 + Real.cos lat0 ^ 2 = 1 := Real.sin_sq_add_cos_sq lat0
  have h3 : Real.sin (lon - lon0) ^ 2 + Real.cos (lon - lon0) ^ 2 = 1 :=
    Real.sin_sq_add_cos_sq (lon - lon0)
  set S := Real.sin lat0 with hS
  set C0 := Real.cos lat0 with hC0
  set s := Real.sin lat with hs
  set cl := Real.cos lat with hcl'
  set E := Real.sin (lon - lon0) with hE
  set D := Real.cos (lon - lon0) with hD
  set q := S * s + C0 * cl * D with hq
  set c := Real.arccos q with hcdef
  have hcpos : 0 < c := Real.arccos_pos.mpr hc2
  have hclt : c < π := lt_of_le_of_ne (Real.arccos_le_pi q) (by
    intro h
    exact absurd (Real.arccos_eq_pi.mp h) (not_le.mpr hc1))
  have hsinc : 0 < Real.sin c := Real.sin_pos_of_pos_of_lt_pi hcpos hclt
  have hcosc : Real.cos c = q := Real.cos_arccos (le_of_lt hc1) (le_of_lt hc2)
  have hclpos : 0 < cl := by
    rw [hcl']
    exact Real.cos_pos_of_mem_Ioo ⟨(abs_lt.mp hlat).1, (abs_lt.mp hlat).2⟩
  set k := c / Real.sin c with hkdef
  have hksc : k * Real.sin c = c := div_mul_cancel₀ c (ne_of_gt hsinc)
  have hkpos : 0 < k := div_pos hcpos hsinc
  have key : (cl * E) ^ 2 + (C0 * s - S * cl * D) ^ 2 = Real.sin c ^ 2 := by
    have hs2 : Real.sin c ^ 2 = 1 - q ^ 2 := by
      have h4 := Real.sin_sq_add_cos_sq c
      rw [hcosc] at h4
      linarith
    rw [hs2, hq]
    linear_combination cl ^ 2 * h3 + h1 + (s ^ 2 + cl ^ 2 * D ^ 2) * h2
  have hxy : (R * k * (cl * E)) ^ 2 + (R * k * (C0 * s - S * cl * D)) ^ 2 =
      (R * c) ^ 2 := by
    have expand : (R * k * (cl * E)) ^ 2 +
        (R * k * (C0 * s - S * cl * D)) ^ 2 =
        R ^ 2 * k ^ 2 * ((cl * E) ^ 2 + (C0 * s - S * cl * D) ^ 2) := by ring
    rw [expand, key]
    calc R ^ 2 * k ^ 2 * Real.sin c ^ 2 = (R * (k * Real.sin c)) ^ 2 := by ring
    _ = (R * c) ^ 2 := by rw [hksc]
  have hrho : Real.sqrt ((R * k * (cl * E)) ^ 2 +
      (R * k * (C0 * s - S * cl * D)) ^ 2) = R * c := by
    rw [hxy]
    exact Real.sqrt_sq (le_of_lt (mul_pos hR hcpos))
  rw [hrho, mul_div_cancel_left₀ c (ne_of_gt hR), hcosc]
  rw [Prod.mk.injEq]
  constructor
  · have hfrac : R * k * (C0 * s - S * cl * D) * Real.sin c * C0 / (R * c) =
        (C0 * s - S * cl * D) * C0 := by
      rw [div_eq_iff (ne_of_gt (mul_pos hR hcpos))]
      linear_combination (R * (C0 * s - S * cl * D) * C0) * hksc
    rw [hfrac]
    have harg : q * S + (C0 * s - S * cl * D) * C0 = s := by
      rw [hq]
      linear_combination s * h2
    rw [harg, hs]
    exact Real.arcsin_sin (by linarith [(abs_lt.mp hlat).1])
      (by linarith [(abs_lt.mp hlat).2])
  · have hX1 : R * k * (cl * E) * Real.sin c = R * c * cl * E := by
      linear_combination (R * cl * E) * hksc
    have hX2 : R * c * q * C0 - R * k * (C0 * s - S * cl * D) *
        Real.sin c * S = R * c * cl * D := by
      linear_combination (-(R * S * (C0 * s - S * cl * D))) * hksc +
        (R * c * cl * D) * h2
    rw [hX1, hX2, hE, hD,
      atan2_polar (R * c * cl) (lon - lon0)
        (mul_pos (mul_pos hR hcpos) hclpos) hd1 hd2]
    ring

open Real in
/-- C6: the coordinate transform round-trips: for a site `(lat0, lon0)` and
the geographic point `(lat, lon)` shifted from it, applying
`geographic_to_cartesian_aeqd` and then `cartesian_to_geographic_aeqd`
returns that geographic coordinate exactly — in particular within the
1e-6-degree (`π/180 · 10⁻⁶` radian) tolerance the spec allows for offsets
under 500 km — away from the degenerate configurations (point at a pole, at
the site itself, at its antipode, or with `|lon - lon0| ≥ π`). -/
theorem c6_aeqd_round_trip (R lat0 lon0 lat lon : ℝ) (hR : 0 < R)
    (hlat : |lat| < π / 2)
    (hd1 : -π < lon - lon0) (hd2 : lon - lon0 < π)
    (hc1 : -1 < Real.sin lat0 * Real.sin lat +
      Real.cos lat0 * Real.cos lat * Real.cos (lon - lon0))
    (hc2 : Real.sin lat0 * Real.sin lat +
      Real.cos lat0 * Real.cos lat * Real.cos (lon - lon0) < 1) :
    cartesian_to_geographic_aeqd R lat0 lon0
        (geographic_to_cartesian_aeqd R lat0 lon0 lat lon).1
        (geographic_to_cartesian_aeqd R lat0 lon0 lat lon).2 = (lat, lon) ∧
    |(cartesian_to_geographic_aeqd R lat0 lon0
        (geographic_to_cartesian_aeqd R lat0 lon0 lat lon).1
        (geographic_to_cartesian_aeqd R lat0 lon0 lat lon).2).1 - lat| ≤
      π / 180 * (1 / 1000000) ∧
    |(cartesian_to_geographic_aeqd R lat0 lon0
        (geographic_to_cartesian_aeqd R lat0 lon0 lat lon).1
        (geographic_to_cartesian_aeqd R lat0 lon0 lat lon).2).2 - lon| ≤
      π / 180 * (1 / 1000000) := by
  have h := aeqd_round_trip R lat0 lon0 lat lon hR hlat hd1 hd2 hc1 hc2
  have hp := Real.pi_pos
  refine ⟨h, ?_, ?_⟩
  · rw [h]
    simp only [sub_self, abs_zero]
    positivity
  · rw [h]
    simp only [sub_self, abs_zero]
    positivity

open Real in
/-- C6 witness: with the site at `(0, 0)` on an earth of radius 6371 km,
the point at latitude 0 and longitude `π/4` survives the forward-inverse
round trip exactly. -/
theorem c6_aeqd_round_trip_witness :
    cartesian_to_geographic_aeqd 6371000 0 0
        (geographic_to_cartesian_aeqd 6371000 0 0 0 (π / 4)).1
        (geographic_to_cartesian_aeqd 6371000 0 0 0 (π / 4)).2 =
      (0, π / 4) := by
  have hp := Real.pi_pos
  have hs2 : Real.sqrt 2 < 2 := by
    nlinarith [Real.sq_sqrt (by norm_num : (0 : ℝ) ≤ 2), Real.sqrt_nonneg 2]
  have hs0 : 0 ≤ Real.sqrt 2 := Real.sqrt_nonneg 2
  have hcos : Real.sin 0 * Real.sin 0 +
      Real.cos 0 * Real.cos 0 * Real.cos (π / 4 - 0) = Real.sqrt 2 / 2 := by
    rw [sub_zero, Real.sin_zero, Real.cos_zero, Real.cos_pi_div_four]
    ring
  exact (c6_aeqd_round_trip 6371000 0 0 0 (π / 4) (by norm_num)
    (by rw [abs_zero]; linarith)
    (by rw [sub_zero]; linarith)
    (by rw [sub_zero]; linarith)
    (by rw [hcos]; linarith)
    (by rw [hcos]; linarith)).1

end Radarx
